import Mathlib

/-!
Verification development for the Feishu approval-attachment forwarding service.

The definitions below are a shallow embedding of the two core modules:

* main.py — webhook admission: signature/token verification, the challenge
  handshake, event-id derivation, the two bounded in-memory dedup sets, and
  the background dispatch that guards the instance-level check-and-mark.
* handlers/approval.py — the approval handler: routing by approval name,
  the single-pass walk over the form field list recovering title / amount /
  line-item contents, and the orchestration that sends the final email.

Modelling conventions:
* Python dict lookups of optional string fields become Option String; Python
  truthiness of a string ("" and None are falsy) is the function py_truthy.
* Python sets are modelled by their membership, carried as duplicate-free
  lists.  The truncation step converts the set to a list (list(s)[-5000:]),
  and CPython leaves set iteration order unspecified (hash-table order), so
  that conversion is an explicit oracle parameter enum; properties of the
  program are the ones that hold for every enum that enumerates the
  membership (a permutation), and a property that fails for some admissible
  enum is not a property of the program.
* json.loads outcomes are embedded as already-parsed sums (SumItems, FormJson):
  fallible parsing is an Option-style constructor split, since the claims only
  depend on the success/failure split, not on concrete JSON syntax.
* External collaborators (attachment extractor, downloader, HMAC digest) are
  function parameters: the claims concern the control flow around them.
* String helpers (strip / endswith / replace / substring test) are implemented
  by structural recursion over character lists so that every definition
  evaluates inside the kernel.
-/

namespace FeishuApproval

/-- Python string truthiness for an optional field: None and "" are falsy. -/
def py_truthy : Option String → Bool
  | none => false
  | some s => s != ""

/-- Python `a or b` over two optional strings: the first truthy operand,
else the second operand unchanged. -/
def py_or (a b : Option String) : Option String :=
  if py_truthy a then a else b

/-- Python `x or ""`: the value when truthy, else the empty string. -/
def py_or_empty (a : Option String) : String :=
  if py_truthy a then a.getD "" else ""

/-- Leading-segment test on character lists (used for endswith / substring). -/
def leading_match : List Char → List Char → Bool
  | [], _ => true
  | _ :: _, [] => false
  | p :: ps, c :: cs => p == c && leading_match ps cs

/-- Python str.endswith. -/
def ends_with (s suffix : String) : Bool :=
  leading_match suffix.data.reverse s.data.reverse

/-- Substring occurrence over character lists. -/
def contains_aux (pat : List Char) : List Char → Bool
  | [] => leading_match pat []
  | c :: cs => leading_match pat (c :: cs) || contains_aux pat cs

/-- Python `sub in s` substring test. -/
def py_contains (sub s : String) : Bool :=
  contains_aux sub.data s.data

/-- Python str.strip over a character list: drop whitespace on both ends. -/
def strip_list (l : List Char) : List Char :=
  ((l.dropWhile Char.isWhitespace).reverse.dropWhile Char.isWhitespace).reverse

/-- Python str.strip. -/
def py_strip (s : String) : String :=
  String.mk (strip_list s.data)

/-- Replace every non-overlapping occurrence of old by new, left to right,
over character lists; fuel bounds the recursion by the input length. -/
def replace_aux (old new : List Char) : Nat → List Char → List Char
  | 0, s => s
  | _ + 1, [] => []
  | n + 1, c :: cs =>
    if leading_match old (c :: cs) then
      new ++ replace_aux old new n ((c :: cs).drop old.length)
    else
      c :: replace_aux old new n cs

/-- Python str.replace (the code only calls it with non-empty old strings). -/
def py_replace (s old new : String) : String :=
  if old.data.isEmpty then s
  else String.mk (replace_aux old.data new.data s.data.length s.data)

/-- Inbound event body: the fields of interest read by main.py and
handlers/approval.py, each an optional string exactly as a dict lookup
yields it.  Nested lookups (header.x, event.x, event.object.x) are
flattened; a missing intermediate object behaves as all-absent leaves,
matching the `.get(k, \x7b\x7d)` chains in the source. -/
structure EventBody where
  type : Option String := none
  challenge : Option String := none
  token : Option String := none
  headerEventId : Option String := none
  headerEventType : Option String := none
  uuid : Option String := none
  eventInstanceCode : Option String := none
  eventApprovalCode : Option String := none
  eventObjectInstanceCode : Option String := none
  eventStatus : Option String := none
  eventInstanceStatus : Option String := none
  eventObjectStatus : Option String := none
deriving DecidableEq

/-- The configuration fields read by the modelled code (config.py Settings). -/
structure Settings where
  feishu_verification_token : String := ""
  feishu_signing_secret : String := ""
  email_expense : String := ""
  email_payment_sweden_shic : String := ""
deriving DecidableEq

/-- The three signature-related request headers (absent when not sent). -/
structure RequestHeaders where
  timestamp : Option String := none
  nonce : Option String := none
  signature : Option String := none
deriving DecidableEq

/-- The two module-level dedup sets of main.py, as insertion-ordered lists. -/
structure DedupState where
  events : List String := []
  instances : List String := []
deriving DecidableEq

/-- main.py _MAX_PROCESSED_EVENTS. -/
def MAX_PROCESSED_EVENTS : Nat := 10000

/-- main.py verify_token: reject 403 only when a token is present, truthy and
differs from the configured verification token. -/
def verify_token (st : Settings) (body : EventBody) : Option (Nat × String) :=
  match body.token with
  | none => none
  | some t =>
    if t != "" && t != st.feishu_verification_token then some (403, "invalid token")
    else none

/-- main.py verify_signature, parameterised by the HMAC-SHA256 hex digest
function hm (secret, message ↦ hex digest), an external primitive. -/
def verify_signature (hm : String → String → String) (secret : String)
    (req : RequestHeaders) (raw_body : String) : Option (Nat × String) :=
  if secret = "" then none
  else
    let timestamp := req.timestamp.getD ""
    let nonce := req.nonce.getD ""
    let signature := req.signature.getD ""
    if timestamp = "" ∨ nonce = "" ∨ signature = "" then
      some (400, "missing signature headers")
    else
      let base := timestamp ++ "\n" ++ nonce ++ "\n" ++ raw_body ++ "\n"
      let digest := hm secret base
      if ends_with signature digest then none
      else some (403, "invalid signature")

/-- main.py get_event_id: header.event_id if truthy, else uuid if truthy,
else the instance-code/status composite. -/
def get_event_id (b : EventBody) : String :=
  if py_truthy b.headerEventId then b.headerEventId.getD ""
  else if py_truthy b.uuid then b.uuid.getD ""
  else
    let instance_code :=
      py_or_empty (py_or (py_or b.eventInstanceCode b.eventApprovalCode)
        b.eventObjectInstanceCode)
    let status := py_or_empty (py_or b.eventStatus b.eventInstanceStatus)
    instance_code ++ ":" ++ status

/-- main.py is_duplicate_event: membership check, then — once the cap is
reached — truncation to the last 5000 entries of list(set), then insertion.
The enum parameter is the oracle for the unspecified CPython set iteration
order used by that list conversion: the code keeps the last 5000 members of
whatever order enum produces. -/
def is_duplicate_event (enum : List String → List String) (event_id : String)
    (processed : List String) : Bool × List String :=
  if event_id ∈ processed then (true, processed)
  else
    let processed :=
      if MAX_PROCESSED_EVENTS ≤ processed.length then
        (enum processed).drop ((enum processed).length - 5000)
      else processed
    (false, processed ++ [event_id])

/-- main.py check_and_mark_instance: true means new (now marked), false means
already processed.  Same truncation policy — and the same iteration-order
oracle — as the event set. -/
def check_and_mark_instance (enum : List String → List String)
    (instance_code : String) (processed : List String) : Bool × List String :=
  if instance_code ∈ processed then (false, processed)
  else
    let processed :=
      if MAX_PROCESSED_EVENTS ≤ processed.length then
        (enum processed).drop ((enum processed).length - 5000)
      else processed
    (true, processed ++ [instance_code])

/-- main.py get_instance_code: event.instance_code or event.object.instance_code
or "" — note that event.approval_code is not consulted here. -/
def get_instance_code (b : EventBody) : String :=
  py_or_empty (py_or b.eventInstanceCode b.eventObjectInstanceCode)

/-- The status precedence chain shared by main.py process_approval_event and
handlers/approval.py handle_event: status or instance_status or object.status. -/
def status_chain (b : EventBody) : Option String :=
  py_or (py_or b.eventStatus b.eventInstanceStatus) b.eventObjectStatus

/-- main.py process_approval_event, restricted to its effect on shared state:
returns the updated instance set and whether the handler was invoked.  The
instance check-and-mark runs only for APPROVED events with a non-empty
get_instance_code result. -/
def process_approval_event (enum : List String → List String) (b : EventBody)
    (instances : List String) : List String × Bool :=
  let instance_code := get_instance_code b
  let status := status_chain b
  if status = some "APPROVED" ∧ instance_code ≠ "" then
    match check_and_mark_instance enum instance_code instances with
    | (true, marked) => (marked, true)
    | (false, marked) => (marked, false)
  else (instances, true)

/-- Responses of the webhook endpoint. -/
inductive WebhookResponse where
  | ack
  | challenge (value : String)
  | httpError (status : Nat) (detail : String)
deriving DecidableEq

/-- main.py feishu_webhook — the synchronous request path: JSON decoding
outcome, signature check, token check, challenge handshake, event-id dedup,
then scheduling of the background task (returned as the third component). -/
def feishu_webhook (enum : List String → List String)
    (hm : String → String → String) (st : Settings)
    (req : RequestHeaders) (raw_body : String) (body? : Option EventBody)
    (events : List String) :
    WebhookResponse × List String × Option EventBody :=
  match body? with
  | none => (.httpError 400 "invalid json", events, none)
  | some body =>
    match verify_signature hm st.feishu_signing_secret req raw_body with
    | some (s, d) => (.httpError s d, events, none)
    | none =>
      match verify_token st body with
      | some (s, d) => (.httpError s d, events, none)
      | none =>
        if body.type = some "url_verification" ∧ body.challenge.isSome then
          (.challenge (body.challenge.getD ""), events, none)
        else
          let event_id := get_event_id body
          match is_duplicate_event enum event_id events with
          | (true, events) => (.ack, events, none)
          | (false, events) => (.ack, events, some body)

/-- One full request: the synchronous webhook path followed by the background
task (when one was scheduled), observed through its effect on the dedup
state. -/
def handle_request (enum : List String → List String)
    (hm : String → String → String) (st : Settings)
    (req : RequestHeaders) (raw_body : String) (body? : Option EventBody)
    (ds : DedupState) : WebhookResponse × DedupState :=
  match feishu_webhook enum hm st req raw_body body? ds.events with
  | (resp, evs, none) => (resp, { ds with events := evs })
  | (resp, evs, some b) =>
    let marked := (process_approval_event enum b ds.instances).1
    (resp, { events := evs, instances := marked })

/-- Two concurrent background tasks both performing the check-and-mark for the
same instance code; each call is a single atomic step (the Python function
contains no await point, so the asyncio scheduler cannot interleave inside
it).  The flag selects which task the scheduler runs first; the pair is
(result of task one, result of task two). -/
def run_two_marks (enum : List String → List String) (code : String)
    (s : List String) (task_one_first : Bool) :
    (Bool × Bool) × List String :=
  if task_one_first then
    match check_and_mark_instance enum code s with
    | (r1, s1) =>
      match check_and_mark_instance enum code s1 with
      | (r2, s2) => ((r1, r2), s2)
  else
    match check_and_mark_instance enum code s with
    | (r2, s1) =>
      match check_and_mark_instance enum code s1 with
      | (r1, s2) => ((r1, r2), s2)

/-- One cell of a fieldList row: a dict with name, type and a string value
(the keys the code reads; .get defaults are folded into the empty string). -/
structure Cell where
  name : String := ""
  type : String := ""
  value : String := ""
deriving DecidableEq

/-- One entry of a fieldList value array: the code only descends into entries
that are lists (isinstance check); anything else is skipped. -/
inductive RowEntry where
  | cells (cs : List Cell)
  | nonList
deriving DecidableEq

/-- One element of a decoded sumItems array: a value/currency pair
(missing keys default to ""). -/
structure SumItem where
  value : String := ""
  currency : String := ""
deriving DecidableEq

/-- The sumItems attribute of an ext item together with its json.loads
outcome: rawEmpty is the falsy empty string (parsing is never attempted),
malformed is a non-empty string on which json.loads raises JSONDecodeError,
parsed is a successful decode. -/
inductive SumItems where
  | rawEmpty
  | malformed (raw : String)
  | parsed (sums : List SumItem)
deriving DecidableEq

/-- One item of a fieldList ext array. -/
structure ExtItem where
  type : String := ""
  sumItems : SumItems := .rawEmpty
  value : String := ""
deriving DecidableEq

/-- The polymorphic ext attribute of a form field: a dict (isinstance dict —
possibly carrying a currency), an array of items (isinstance list), or
absent/other (either dict default \x7b\x7d or a shape both branches skip). -/
inductive Ext where
  | absent
  | obj (currency : Option String)
  | arr (items : List ExtItem)
deriving DecidableEq

/-- The polymorphic value attribute of a form field: absent (dict default),
a string, or a fieldList row array. -/
inductive FieldValue where
  | absent
  | str (s : String)
  | rows (rs : List RowEntry)
deriving DecidableEq

/-- A form field as read by the walk in _process_approval. -/
structure FormField where
  name : String := ""
  type : String := ""
  value : FieldValue := .absent
  ext : Ext := .absent
deriving DecidableEq

/-- The walk accumulator of _process_approval: approval_title,
approval_amount, expense_contents. -/
structure WalkState where
  title : String := ""
  amount : String := ""
  expenses : List String := []
deriving DecidableEq

/-- Title-bearing field names recognised by the walk. -/
def isTitleName (n : String) : Bool :=
  n == "名称" || n == "付款事由"

/-- Field types accepted by the title branch. -/
def isTitleType (t : String) : Bool :=
  t == "input" || t == "textarea"

/-- Amount-bearing field names recognised by the walk. -/
def isAmountName (n : String) : Bool :=
  n == "金额" || n == "付款金额"

/-- The currency read from an amount field ext: ext.currency when ext is a
dict (default "SEK"), and "SEK" for every non-dict shape. -/
def extCurrency : Ext → String
  | .obj c => c.getD "SEK"
  | _ => "SEK"

/-- The fieldList ext scan: the loop stops at the first item whose type is
"amount"; some a means approval_amount is assigned a, none means the
assignment does not happen (no amount item, or its sumItems is the falsy
empty string).  A successful decode joins "value currency" pairs with ", ";
a JSONDecodeError falls back to the item's raw value. -/
def findAmountItem : List ExtItem → Option String
  | [] => none
  | i :: rest =>
    if i.type == "amount" then
      match i.sumItems with
      | .rawEmpty => none
      | .malformed _ => some i.value
      | .parsed sums =>
        some (String.intercalate ", "
          (sums.map (fun s => s.value ++ " " ++ s.currency)))
    else findAmountItem rest

/-- The fieldList value as a row list: the dict default is the empty list and
a non-list value is skipped by the isinstance check, so both become []. -/
def rowsOf : FieldValue → List RowEntry
  | .rows rs => rs
  | _ => []

/-- A cell contributes its stripped value when it is named 报销内容, has type
input and the stripped value is non-empty. -/
def cellContent (c : Cell) : Option String :=
  if c.name == "报销内容" && c.type == "input" then
    let v := py_strip c.value
    if v == "" then none else some v
  else none

/-- Contents contributed by one row entry (non-list entries are skipped). -/
def rowContents : RowEntry → List String
  | .cells cs => cs.filterMap cellContent
  | .nonList => []

/-- All line-item contents of a fieldList value, in row then cell order. -/
def expenseCells : List RowEntry → List String
  | [] => []
  | r :: rs => rowContents r ++ expenseCells rs

/-- One iteration of the walk in _process_approval.  The title branch strips
the value only when the title is still empty, and stripping a list value
raises (AttributeError), embedded as Except.error.  The amount branch
formats the value with the ext currency (a list value there would be
rendered through the f-string by Python; no real form carries one, and the
embedding reports it as an error instead of inventing a repr).  The
fieldList branch searches ext for a total when the amount is still empty
and appends the row line-item contents. -/
def processField (st : WalkState) (f : FormField) : Except String WalkState :=
  if isTitleName f.name && isTitleType f.type then
    if st.title = "" then
      match f.value with
      | .str s => .ok { st with title := py_strip s }
      | .absent => .ok { st with title := py_strip "" }
      | .rows _ => .error "AttributeError: list has no strip"
    else .ok st
  else if isAmountName f.name && f.type == "amount" then
    match f.value with
    | .str s => .ok { st with amount := s ++ " " ++ extCurrency f.ext }
    | .absent => .ok { st with amount := "" ++ " " ++ extCurrency f.ext }
    | .rows _ => .error "unmodelled: list amount value"
  else if f.type == "fieldList" then
    let amount :=
      if st.amount = "" then
        match f.ext with
        | .arr items =>
          match findAmountItem items with
          | some a => a
          | none => st.amount
        | _ => st.amount
      else st.amount
    .ok { st with amount := amount,
                  expenses := st.expenses ++ expenseCells (rowsOf f.value) }
  else .ok st

/-- The walk over the field list, threading the accumulator. -/
def processFormAux : WalkState → List FormField → Except String WalkState
  | st, [] => .ok st
  | st, f :: rest =>
    match processField st f with
    | .error e => .error e
    | .ok st => processFormAux st rest

/-- The full walk from the initial empty accumulator. -/
def processForm (fields : List FormField) : Except String WalkState :=
  processFormAux {} fields

/-- The title finalisation after the walk: non-empty expense contents joined
with "-" override everything; else an empty title falls back to the serial
number, defaulting to the instance code when the serial key is absent. -/
def finalizeTitle (st : WalkState) (serial_number : Option String)
    (instance_code : String) : String :=
  if st.expenses ≠ [] then String.intercalate "-" st.expenses
  else if st.title = "" then serial_number.getD instance_code
  else st.title

/-- A form string together with its json.loads outcome; the dict default
"[]" for a missing form key decodes to the empty field list. -/
inductive FormJson where
  | malformed
  | fields (fs : List FormField)
deriving DecidableEq

/-- The fetched approval instance detail (the attributes the handler reads). -/
structure Instance where
  approval_name : String := ""
  form : FormJson := .fields []
  serial_number : Option String := none
deriving DecidableEq

/-- A reference to a remotely stored attachment before download. -/
structure AttachmentRef where
  name : String := ""
  code : String := ""
deriving DecidableEq

/-- A downloaded attachment (the service drops failed downloads itself). -/
structure AttachmentInfo where
  name : String := ""
deriving DecidableEq

/-- The email the orchestrator hands to the email collaborator. -/
structure EmailMessage where
  to_email : String
  subject : String
  body : String
  attach_count : Nat
deriving DecidableEq

/-- Outcome of one _process_approval run: the email sent (if any) and the
boolean the coroutine returns. -/
structure ProcessResult where
  email : Option EmailMessage
  returned : Bool
deriving DecidableEq

/-- handlers/approval.py APPROVAL_EMAIL_ATTRS. -/
def APPROVAL_EMAIL_ATTRS : List (String × String) :=
  [("费用报销", "email_expense"),
   ("付款-瑞典对公-SHIC", "email_payment_sweden_shic")]

/-- Association lookup modelling dict.get on the routing table. -/
def lookup_attr : List (String × String) → String → Option String
  | [], _ => none
  | (k, v) :: rest, n => if n = k then some v else lookup_attr rest n

/-- getattr(self.settings, attr_name, "") for the two routed attributes. -/
def getattr_email (st : Settings) (attr : String) : String :=
  if attr = "email_expense" then st.email_expense
  else if attr = "email_payment_sweden_shic" then st.email_payment_sweden_shic
  else ""

/-- handlers/approval.py _get_target_email: None when the approval name has
no table entry or the configured address is blank. -/
def get_target_email (st : Settings) (approval_name : String) : Option String :=
  match lookup_attr APPROVAL_EMAIL_ATTRS approval_name with
  | none => none
  | some attr =>
    let email := getattr_email st attr
    if email = "" then none else some email

/-- handlers/approval.py _process_approval, with the two attachment
collaborators as parameters.  An Except.error is a raised exception
(propagated to the background wrapper); .ok is a normal return. -/
def process_approval (st : Settings) (instance_code : String) (inst : Instance)
    (extract : FormJson → List AttachmentRef)
    (download : List AttachmentRef → List AttachmentInfo) :
    Except String ProcessResult :=
  let approval_name := inst.approval_name
  match get_target_email st approval_name with
  | none => .ok ⟨none, false⟩
  | some target_email =>
    match inst.form with
    | .malformed => .error "json.loads: invalid form"
    | .fields form_data =>
      match processFormAux {} form_data with
      | .error e => .error e
      | .ok walk =>
        let approval_title := finalizeTitle walk inst.serial_number instance_code
        let attachments := extract inst.form
        if attachments = [] then .ok ⟨none, false⟩
        else
          let downloaded := download attachments
          if downloaded = [] then .ok ⟨none, false⟩
          else
            let subject := "[" ++ approval_name ++ "]-" ++
              py_replace (py_replace approval_title "\n" " ") "\r" ""
            let body := "审批已通过\n\n审批类型: " ++ approval_name ++
              "\n审批标题: " ++ approval_title ++
              "\n审批金额: " ++ walk.amount ++
              "\n附件数量: " ++ toString downloaded.length ++ "\n"
            .ok ⟨some ⟨target_email, subject, body, downloaded.length⟩, true⟩

/-- handlers/approval.py handle_event, restricted to its classification steps:
some code means every filter passed and _process_approval would be invoked
with that instance code; none is a classification no-op.  The event type
must be absent/empty or mention approval_instance; the status chain must
yield APPROVED; the instance code chain (which, unlike main.py
get_instance_code, consults event.approval_code) must be truthy. -/
def handle_event_admission (b : EventBody) : Option String :=
  let event_type := b.headerEventType.getD ""
  if event_type != "" && !(py_contains "approval_instance" event_type) then none
  else if status_chain b ≠ some "APPROVED" then none
  else
    match py_or (py_or b.eventInstanceCode b.eventApprovalCode)
      b.eventObjectInstanceCode with
    | some c => if c ≠ "" then some c else none
    | none => none

/-- Sequential insertion of a batch of event ids into the event dedup set
(each webhook request performs one is_duplicate_event step), under a fixed
iteration-order oracle. -/
def insert_all_events (enum : List String → List String) (s : List String)
    (ids : List String) : List String :=
  ids.foldl (fun s id => (is_duplicate_event enum id s).2) s

/-- An admissible iteration-order oracle enumerates exactly the membership:
the list it returns is a permutation of the set contents it was given. -/
def admissible_enum (enum : List String → List String) : Prop :=
  ∀ l : List String, (enum l).Perm l

/-- The title the walk can pick from one field, per the specified rule: an
input/textarea field with a recognised title-bearing name contributes its
stripped value when that is non-empty. -/
def title_candidate (f : FormField) : Option String :=
  if isTitleName f.name && isTitleType f.type then
    match f.value with
    | .str s => if py_strip s ≠ "" then some (py_strip s) else none
    | _ => none
  else none

/-- The title produced by the pass: the first non-empty stripped value among
recognised title fields, else the empty string. -/
def first_title (fields : List FormField) : String :=
  (fields.filterMap title_candidate).headD ""

/-- The line-item contents accumulated by the pass, computed directly: each
fieldList field contributes its row contents in order. -/
def expensesOf : List FormField → List String
  | [] => []
  | f :: rest =>
    (if f.type == "fieldList" then expenseCells (rowsOf f.value) else [])
      ++ expensesOf rest

/-- The amount after one fieldList step, observed through processField
(none would be a raised exception; the fieldList branch never raises). -/
def stepAmount (st : WalkState) (f : FormField) : Option String :=
  match processField st f with
  | .ok st => some st.amount
  | .error _ => none

/-- The first ext item whose type is "amount", as the claim describes the
search. -/
def find_first_amount (items : List ExtItem) : Option ExtItem :=
  items.find? (fun i => i.type == "amount")

/-- Modelled from the claim wording for C3: on the first amount-typed ext
item, a successful sumItems decode joins the pairs and any failure to parse
(which includes the empty string — json.loads rejects it) falls back to the
raw value. -/
def findAmountItemClaim : List ExtItem → Option String
  | [] => none
  | i :: rest =>
    if i.type == "amount" then
      match i.sumItems with
      | .parsed sums =>
        some (String.intercalate ", "
          (sums.map (fun s => s.value ++ " " ++ s.currency)))
      | _ => some i.value
    else findAmountItemClaim rest

/-- Modelled from the claim wording for C6: header.event_id when present and
non-empty, else uuid whenever present (the claim does not require it to be
non-empty), else the composite. -/
def get_event_id_claim (b : EventBody) : String :=
  if py_truthy b.headerEventId then b.headerEventId.getD ""
  else
    match b.uuid with
    | some u => u
    | none =>
      let instance_code :=
        py_or_empty (py_or (py_or b.eventInstanceCode b.eventApprovalCode)
          b.eventObjectInstanceCode)
      let status := py_or_empty (py_or b.eventStatus b.eventInstanceStatus)
      instance_code ++ ":" ++ status

/-- Event ids used to exercise the eviction bound: 10001 pairwise distinct
strings (the id of index n is the string of n repetitions of a). -/
def eviction_ids : List String :=
  (List.range 10001).map (fun n => String.mk (List.replicate n 'a'))

/-- Title-precedence example form of C1: a recognised title field followed by
a fieldList whose rows carry the line items hotel and taxi. -/
def c1_fields : List FormField :=
  [{ name := "付款事由", type := "input", value := .str "Q1 travel" },
   { name := "报销明细", type := "fieldList",
     value := .rows
       [.cells [{ name := "报销内容", type := "input", value := "hotel" }],
        .cells [{ name := "报销内容", type := "input", value := "taxi" }]] }]

/-- C3 counterexample data: an amount-typed ext item whose sumItems is the
empty string (falsy, unparseable) and whose raw value is 42. -/
def c3_item : ExtItem :=
  { type := "amount", sumItems := .rawEmpty, value := "42" }

/-- C3 counterexample field: a fieldList whose ext array holds c3_item. -/
def c3_field : FormField :=
  { name := "报销明细", type := "fieldList", value := .absent,
    ext := .arr [c3_item] }

/-- C3 witness data: an amount item whose sumItems decodes to the single pair
value 100, currency SEK — the decoded form of the sumItems JSON literal in
the claim. -/
def c3_parsed_item : ExtItem :=
  { type := "amount", sumItems := .parsed [{ value := "100", currency := "SEK" }],
    value := "raw" }

/-- C3 witness data: an amount item with undecodable non-empty sumItems. -/
def c3_malformed_item : ExtItem :=
  { type := "amount", sumItems := .malformed "not json", value := "42" }

/-- C3 witness field around c3_parsed_item. -/
def c3_parsed_field : FormField :=
  { name := "报销明细", type := "fieldList", value := .absent,
    ext := .arr [c3_parsed_item] }

/-- C3 witness field around c3_malformed_item. -/
def c3_malformed_field : FormField :=
  { name := "报销明细", type := "fieldList", value := .absent,
    ext := .arr [c3_malformed_item] }

/-- C6 counterexample body: no header.event_id, a present but empty uuid, and
an instance code and status available for the composite fallback. -/
def c6_body : EventBody :=
  { uuid := some "", eventInstanceCode := some "X",
    eventStatus := some "APPROVED" }

/-- C10 body: the instance code appears only under event.approval_code. -/
def c10_body : EventBody :=
  { eventApprovalCode := some "AC-1", eventStatus := some "APPROVED" }

/-- Routable settings used by witnesses. -/
def witness_settings : Settings :=
  { email_expense := "finance@example.com" }

/-- A fetched instance of the routed expense category with an empty form. -/
def c8_instance : Instance :=
  { approval_name := "费用报销", form := .fields [] }

/-- An extractor returning one attachment reference for every form. -/
def c8_extract_one : FormJson → List AttachmentRef :=
  fun _ => [{ name := "receipt.pdf", code := "F1" }]

/-- A downloader that succeeds on every reference. -/
def c8_download_ok : List AttachmentRef → List AttachmentInfo :=
  fun refs => refs.map (fun r => { name := r.name })

/-! Dedup-store lemmas. -/

theorem check_mark_mem (enum : List String → List String) (code : String)
    (s : List String) :
    code ∈ (check_and_mark_instance enum code s).2 := by
  unfold check_and_mark_instance
  by_cases h : code ∈ s
  · simp [h]
  · simp [h]

theorem check_mark_dup (enum : List String → List String) (code : String)
    (s : List String) (h : code ∈ s) :
    check_and_mark_instance enum code s = (false, s) := by
  unfold check_and_mark_instance
  simp [h]

theorem check_mark_fresh (enum : List String → List String) (code : String)
    (s : List String) (h : code ∉ s) :
    (check_and_mark_instance enum code s).1 = true := by
  unfold check_and_mark_instance
  simp [h]

theorem is_dup_fresh (enum : List String → List String) (id : String)
    (s : List String) (h : id ∉ s)
    (hlen : s.length < MAX_PROCESSED_EVENTS) :
    is_duplicate_event enum id s = (false, s ++ [id]) := by
  unfold is_duplicate_event
  simp [h, Nat.not_le.mpr hlen]

theorem is_dup_trunc (enum : List String → List String) (id : String)
    (s : List String) (h : id ∉ s)
    (hlen : MAX_PROCESSED_EVENTS ≤ s.length) :
    is_duplicate_event enum id s =
      (false, (enum s).drop ((enum s).length - 5000) ++ [id]) := by
  unfold is_duplicate_event
  simp [h, hlen]

theorem insert_all_cons (enum : List String → List String) (s : List String)
    (id : String) (ids : List String) :
    insert_all_events enum s (id :: ids) =
      insert_all_events enum (is_duplicate_event enum id s).2 ids := rfl

theorem insert_all_no_trunc (enum : List String → List String) :
    ∀ (ids : List String) (s : List String), ids.Nodup →
      (∀ id ∈ ids, id ∉ s) → s.length + ids.length ≤ MAX_PROCESSED_EVENTS →
      insert_all_events enum s ids = s ++ ids := by
  intro ids
  induction ids with
  | nil => intro s _ _ _; simp [insert_all_events]
  | cons id rest ih =>
    intro s hnd hdisj hlen
    have hid : id ∉ s := hdisj id (by simp)
    have hlt : s.length < MAX_PROCESSED_EVENTS := by
      simp only [List.length_cons] at hlen; omega
    rw [insert_all_cons, is_dup_fresh enum id s hid hlt]
    have hrest : insert_all_events enum (s ++ [id]) rest
        = (s ++ [id]) ++ rest := by
      refine ih (s ++ [id]) hnd.of_cons ?_ ?_
      · intro x hx
        simp only [List.mem_append, List.mem_singleton]
        rintro (hxs | hxid)
        · exact hdisj x (List.mem_cons_of_mem _ hx) hxs
        · exact (List.nodup_cons.mp hnd).1 (hxid ▸ hx)
      · simp only [List.length_append, List.length_cons, List.length_nil]
          at hlen ⊢
        omega
    simp only [hrest, List.append_assoc, List.singleton_append]

theorem concurrent_mark_twice (enum : List String → List String)
    (code : String) (s : List String) :
    (check_and_mark_instance enum code
      ((check_and_mark_instance enum code s).2)).1 = false := by
  rw [check_mark_dup enum code _ (check_mark_mem enum code s)]

theorem mem_drop_range_le {n m k : ℕ} (hk : k ∈ (List.range n).drop m) :
    m ≤ k := by
  obtain ⟨i, hi, hget⟩ := List.mem_iff_getElem.mp hk
  rw [List.getElem_drop, List.getElem_range] at hget
  omega

/-- The shape of the store after 10001 distinct inserts from empty: the
first 10000 fill the set without truncation, and the last insert truncates
to the final 5000 entries of whatever order the iteration oracle produced,
then appends the new id. -/
theorem insert_all_10001 (enum : List String → List String) (ids : List String)
    (hnd : ids.Nodup) (hlen : ids.length = 10001) :
    insert_all_events enum [] ids =
      (enum (ids.take 10000)).drop ((enum (ids.take 10000)).length - 5000)
        ++ ids.drop 10000 := by
  have hfront : (ids.take 10000).length = 10000 := by
    rw [List.length_take, hlen]
    omega
  have hdlen : (ids.drop 10000).length = 1 := by
    rw [List.length_drop, hlen]
  obtain ⟨a, ha⟩ := List.length_eq_one.mp hdlen
  have hsplit : ids.take 10000 ++ [a] = ids := by
    rw [← ha]; exact List.take_append_drop _ _
  have hnd2 : (ids.take 10000 ++ [a]).Nodup := by rw [hsplit]; exact hnd
  have hanotin : a ∉ ids.take 10000 := by
    intro hmem
    exact (List.nodup_append.mp hnd2).2.2 hmem (List.mem_singleton_self a)
  have hfr : insert_all_events enum [] (ids.take 10000) = ids.take 10000 := by
    refine insert_all_no_trunc enum (ids.take 10000) []
      (hnd.sublist (List.take_sublist _ _)) (by simp) ?_
    simp [hfront, MAX_PROCESSED_EVENTS]
  have hstep : insert_all_events enum [] ids =
      (is_duplicate_event enum a (ids.take 10000)).2 := by
    conv_lhs => rw [← hsplit]
    simp only [insert_all_events, List.foldl_append, List.foldl_cons,
      List.foldl_nil]
    rw [show List.foldl (fun s id => (is_duplicate_event enum id s).2) []
      (ids.take 10000) = insert_all_events enum [] (ids.take 10000) from rfl,
      hfr]
  have hcap : MAX_PROCESSED_EVENTS ≤ (ids.take 10000).length := by
    rw [hfront]
    decide
  rw [hstep, is_dup_trunc enum a (ids.take 10000) hanotin hcap, ha]

/-- Counterexample for C2: the reversed enumeration is an admissible
iteration order for a CPython set (it enumerates exactly the members), and
under it the store left by 10001 distinct inserts is not the suffix of the
most recently inserted ids — the retained members are the oldest ones, so
"retained = most recently inserted" is not a property of the program. -/
theorem event_store_retention_counterexample :
    admissible_enum List.reverse ∧
      ("" : String) ∈ insert_all_events List.reverse [] eviction_ids ∧
      ("" : String) ∉ eviction_ids.drop 5000 := by
  have hinj : Function.Injective
      (fun n => String.mk (List.replicate n 'a')) := by
    intro m n h
    have := congrArg (fun s => s.data.length) h
    simpa using this
  have hnd : eviction_ids.Nodup := (List.nodup_range _).map hinj
  have hlen : eviction_ids.length = 10001 := by simp [eviction_ids]
  have hfront : (eviction_ids.take 10000).length = 10000 := by
    rw [List.length_take, hlen]
    omega
  have hkey := insert_all_10001 List.reverse eviction_ids hnd hlen
  have hkept : (List.reverse (eviction_ids.take 10000)).drop
      ((List.reverse (eviction_ids.take 10000)).length - 5000)
      = (eviction_ids.take 5000).reverse := by
    rw [List.length_reverse, hfront, List.drop_reverse, hfront,
      List.take_take]
    norm_num
  have htake : eviction_ids.take 5000 =
      (List.range 5000).map (fun n => String.mk (List.replicate n 'a')) := by
    unfold eviction_ids
    rw [← List.map_take, List.take_range, min_eq_left (by norm_num)]
  have hmem : ("" : String) ∈ (eviction_ids.take 5000).reverse := by
    rw [List.mem_reverse, htake]
    exact List.mem_map.mpr ⟨0, List.mem_range.mpr (by norm_num), by decide⟩
  have hnotmem : ("" : String) ∉ eviction_ids.drop 5000 := by
    intro hin
    unfold eviction_ids at hin
    rw [← List.map_drop] at hin
    obtain ⟨n, hn, hFn⟩ := List.mem_map.mp hin
    have hn0 : n = 0 := by
      have := congrArg (fun s => s.data.length) hFn
      simpa using this
    subst hn0
    have := mem_drop_range_le hn
    omega
  refine ⟨fun l => List.reverse_perm l, ?_, hnotmem⟩
  rw [hkey, hkept]
  exact List.mem_append_left _ hmem

/-- Claim C2 (amended): inserting 10001 pairwise distinct event ids into the
empty store triggers the truncation at the cap of 10000 and leaves exactly
5001 entries (so at most 5001), every one of which is a previously inserted
id; which 5000 old members survive is determined by the set's unspecified
iteration order, so they are not necessarily the most recently inserted
ones.  The theorem holds for every admissible iteration-order oracle. -/
theorem event_store_eviction_bound (enum : List String → List String)
    (henum : admissible_enum enum) (ids : List String) (hnd : ids.Nodup)
    (hlen : ids.length = 10001) :
    (insert_all_events enum [] ids).length = 5001 ∧
      ∀ x ∈ insert_all_events enum [] ids, x ∈ ids := by
  have hkey := insert_all_10001 enum ids hnd hlen
  have hfront : (ids.take 10000).length = 10000 := by
    rw [List.length_take, hlen]
    omega
  have hperm := henum (ids.take 10000)
  have helen : (enum (ids.take 10000)).length = 10000 := by
    rw [hperm.length_eq, hfront]
  constructor
  · rw [hkey]
    simp only [List.length_append, List.length_drop, helen, hlen]
  · intro x hx
    rw [hkey] at hx
    rcases List.mem_append.mp hx with hx | hx
    · have hx2 : x ∈ enum (ids.take 10000) := List.mem_of_mem_drop hx
      have hx3 : x ∈ ids.take 10000 := hperm.mem_iff.mp hx2
      exact (List.take_sublist _ _).subset hx3
    · exact (List.drop_sublist _ _).subset hx

/-- Witness for C2: under the identity iteration order (one admissible
oracle), the concrete batch of 10001 pairwise distinct event ids is evicted
down to exactly 5001 entries. -/
theorem event_store_eviction_bound_witness :
    (insert_all_events (fun l => l) [] eviction_ids).length = 5001 := by
  have hinj : Function.Injective (fun n => String.mk (List.replicate n 'a')) := by
    intro m n h
    have := congrArg (fun s => s.data.length) h
    simpa using this
  exact (event_store_eviction_bound (fun l => l) (fun l => List.Perm.refl l)
    eviction_ids ((List.nodup_range _).map hinj) (by simp [eviction_ids])).1

/-- Claim C9: two deliveries racing on the same approved instance code, with
the check-and-mark of each task taken as one atomic step (the Python
function body contains no await point, so the asyncio event loop runs it
without interleaving): in either scheduling order the two results are never
both true, and on a code not yet marked exactly one of the two tasks
proceeds past the check into the processing path. -/
theorem concurrent_duplicate_safety (enum : List String → List String)
    (code : String) (s : List String) (order : Bool) :
    (((run_two_marks enum code s order).1.1 &&
        (run_two_marks enum code s order).1.2) = false) ∧
      (code ∉ s →
        (((run_two_marks enum code s order).1.1 ^^
          (run_two_marks enum code s order).1.2) = true)) := by
  cases order with
  | true =>
    rcases h1 : check_and_mark_instance enum code s with ⟨r1, s1⟩
    have h2 : (check_and_mark_instance enum code s1).1 = false := by
      have := concurrent_mark_twice enum code s
      rwa [h1] at this
    rcases h2' : check_and_mark_instance enum code s1 with ⟨r2, s2⟩
    rw [h2'] at h2
    simp only at h2
    subst h2
    constructor
    · simp [run_two_marks, h1, h2']
    · intro hfresh
      have hr1 : r1 = true := by
        have := check_mark_fresh enum code s hfresh
        rwa [h1] at this
      subst hr1
      simp [run_two_marks, h1, h2']
  | false =>
    rcases h1 : check_and_mark_instance enum code s with ⟨r2, s1⟩
    have h2 : (check_and_mark_instance enum code s1).1 = false := by
      have := concurrent_mark_twice enum code s
      rwa [h1] at this
    rcases h2' : check_and_mark_instance enum code s1 with ⟨r1, s2⟩
    rw [h2'] at h2
    simp only at h2
    subst h2
    constructor
    · simp [run_two_marks, h1, h2']
    · intro hfresh
      have hr2 : r2 = true := by
        have := check_mark_fresh enum code s hfresh
        rwa [h1] at this
      subst hr2
      simp [run_two_marks, h1, h2']

/-- Witness for C9: on a store that does not yet hold the code, the race of
two tasks marking the same code lets exactly one of them proceed (the
identity enumeration instantiates the iteration-order oracle). -/
theorem concurrent_duplicate_safety_witness :
    ("c" ∉ (["a"] : List String)) ∧
      (((run_two_marks (fun l => l) "c" ["a"] true).1.1 ^^
        (run_two_marks (fun l => l) "c" ["a"] true).1.2) = true) :=
  ⟨by decide,
   (concurrent_duplicate_safety (fun l => l) "c" ["a"] true).2 (by decide)⟩

/-- Claim C4: a request whose payload has type url_verification and carries
a challenge value, and which passes the signature and token checks, is
answered by echoing the challenge, and neither dedup set changes — the
handshake returns before the event dedup step and schedules no background
task. -/
theorem challenge_handshake (enum : List String → List String)
    (hm : String → String → String) (st : Settings)
    (req : RequestHeaders) (raw : String) (body : EventBody) (ds : DedupState)
    (c : String)
    (hsig : verify_signature hm st.feishu_signing_secret req raw = none)
    (htok : verify_token st body = none)
    (htype : body.type = some "url_verification")
    (hch : body.challenge = some c) :
    handle_request enum hm st req raw (some body) ds =
      (.challenge c, ds) := by
  unfold handle_request feishu_webhook
  simp [hsig, htok, htype, hch]

/-- Witness for C4: a concrete url_verification request echoes abc123 and
leaves non-empty dedup sets untouched. -/
theorem challenge_handshake_witness :
    handle_request (fun l => l) (fun _ _ => "digest") {} {} ""
        (some { type := some "url_verification", challenge := some "abc123" })
        { events := ["e1"], instances := ["i1"] } =
      (.challenge "abc123", { events := ["e1"], instances := ["i1"] }) :=
  challenge_handshake (fun l => l) (fun _ _ => "digest") {} {} ""
    { type := some "url_verification", challenge := some "abc123" }
    { events := ["e1"], instances := ["i1"] } "abc123" rfl rfl rfl rfl

/-- Claim C5: with no signing secret configured the signature check passes
unconditionally; with a secret, a missing timestamp, nonce or signature
header is rejected with 400, and a signature that does not end with the
keyed digest of timestamp-newline-nonce-newline-body-newline is rejected
with 403.  The digest function is universally quantified, so the statement
holds for the real HMAC-SHA256. -/
theorem signature_check :
    (∀ (hm : String → String → String) (req : RequestHeaders) (raw : String),
      verify_signature hm "" req raw = none) ∧
    (∀ (hm : String → String → String) (secret : String) (req : RequestHeaders)
        (raw : String), secret ≠ "" →
      (req.timestamp = none ∨ req.nonce = none ∨ req.signature = none) →
      verify_signature hm secret req raw =
        some (400, "missing signature headers")) ∧
    (∀ (hm : String → String → String) (secret : String) (req : RequestHeaders)
        (raw t n sg : String), secret ≠ "" →
      req.timestamp = some t → t ≠ "" →
      req.nonce = some n → n ≠ "" →
      req.signature = some sg → sg ≠ "" →
      ends_with sg (hm secret (t ++ "\n" ++ n ++ "\n" ++ raw ++ "\n")) = false →
      verify_signature hm secret req raw = some (403, "invalid signature")) := by
  refine ⟨?_, ?_, ?_⟩
  · intro hm req raw
    simp [verify_signature]
  · intro hm secret req raw hs hmiss
    unfold verify_signature
    rw [if_neg hs]
    rcases hmiss with h | h | h <;> simp [h]
  · intro hm secret req raw t n sg hs ht htne hn hnne hsg hsgne hend
    unfold verify_signature
    rw [if_neg hs]
    simp [ht, hn, hsg, htne, hnne, hsgne, hend]

/-- Witness for C5: the three signature-check outcomes at concrete inputs —
no secret passes, a missing signature header yields 400, and a signature
not ending in the digest yields 403. -/
theorem signature_check_witness :
    verify_signature (fun _ _ => "d1") "" { timestamp := some "1" } "" = none ∧
    verify_signature (fun _ _ => "d1") "sec"
        { timestamp := some "1", nonce := some "2" } "" =
      some (400, "missing signature headers") ∧
    verify_signature (fun _ _ => "d1") "sec"
        { timestamp := some "1", nonce := some "2", signature := some "bad" }
        "body" =
      some (403, "invalid signature") :=
  ⟨signature_check.1 (fun _ _ => "d1") { timestamp := some "1" } "",
   signature_check.2.1 (fun _ _ => "d1") "sec"
     { timestamp := some "1", nonce := some "2" } "" (by decide)
     (Or.inr (Or.inr rfl)),
   signature_check.2.2 (fun _ _ => "d1") "sec"
     { timestamp := some "1", nonce := some "2", signature := some "bad" }
     "body" "1" "2" "bad" (by decide) rfl (by decide) rfl (by decide) rfl
     (by decide) (by decide)⟩

/-- Counterexample for C6: the claim reads the uuid fallback as applying
whenever uuid is present, but the code tests Python truthiness — a body
whose uuid is present but empty falls through to the composite instead of
returning the empty uuid.  get_event_id_claim is the claim as stated;
c6_body carries uuid equal to the empty string. -/
theorem event_id_claim_counterexample :
    get_event_id c6_body ≠ get_event_id_claim c6_body := by decide

/-- Claim C6 (amended): the dedup event id is header.event_id when present
and non-empty; otherwise the top-level uuid when present and non-empty;
otherwise the composite of the instance-code chain (instance_code, else
approval_code, else object.instance_code, else empty) and the status chain
(status, else instance_status, else empty) joined by a colon. -/
theorem event_id_derivation (b : EventBody) :
    (∀ e, b.headerEventId = some e → e ≠ "" → get_event_id b = e) ∧
    (py_truthy b.headerEventId = false → ∀ u, b.uuid = some u → u ≠ "" →
      get_event_id b = u) ∧
    (py_truthy b.headerEventId = false → py_truthy b.uuid = false →
      get_event_id b =
        py_or_empty (py_or (py_or b.eventInstanceCode b.eventApprovalCode)
          b.eventObjectInstanceCode) ++ ":" ++
        py_or_empty (py_or b.eventStatus b.eventInstanceStatus)) := by
  refine ⟨?_, ?_, ?_⟩
  · intro e he hene
    unfold get_event_id
    rw [he]
    simp [py_truthy, hene]
  · intro hh u hu hune
    unfold get_event_id
    rw [hu, hh]
    simp [py_truthy, hune]
  · intro hh hu
    unfold get_event_id
    simp [hh, hu]

/-- Witness for C6: the three derivation cases at concrete bodies, the last
being the body whose present-but-empty uuid forces the composite. -/
theorem event_id_derivation_witness :
    get_event_id { headerEventId := some "E1" } = "E1" ∧
    get_event_id { uuid := some "U1" } = "U1" ∧
    get_event_id c6_body = "X:APPROVED" :=
  ⟨(event_id_derivation { headerEventId := some "E1" }).1 "E1" rfl (by decide),
   (event_id_derivation { uuid := some "U1" }).2.1 (by decide) "U1" rfl
     (by decide),
   ((event_id_derivation c6_body).2.2 (by decide) (by decide)).trans
     (by decide)⟩

/-- Claim C10: when the instance code is carried only by event.approval_code,
main.py get_instance_code yields the empty string, so process_approval_event
skips the atomic check-and-mark (the instance set is left unchanged and the
handler is invoked), while the handler's own three-location extraction finds
the code via approval_code and passes classification — instance-level dedup
is bypassed entirely for such events. -/
theorem approval_code_bypasses_instance_dedup
    (enum : List String → List String) (b : EventBody) (s : List String)
    (h1 : py_truthy b.eventInstanceCode = false)
    (h2 : py_truthy b.eventObjectInstanceCode = false)
    (h3 : py_truthy b.eventApprovalCode = true)
    (h4 : status_chain b = some "APPROVED")
    (h5 : b.headerEventType.getD "" = "" ∨
      py_contains "approval_instance" (b.headerEventType.getD "") = true) :
    get_instance_code b = "" ∧
    process_approval_event enum b s = (s, true) ∧
    handle_event_admission b = b.eventApprovalCode := by
  have hgic : get_instance_code b = "" := by
    unfold get_instance_code py_or_empty py_or
    simp [h1, h2]
  obtain ⟨c, hc, hcne⟩ : ∃ c, b.eventApprovalCode = some c ∧ c ≠ "" := by
    cases hac : b.eventApprovalCode with
    | none => rw [hac] at h3; simp [py_truthy] at h3
    | some c =>
      refine ⟨c, rfl, ?_⟩
      rw [hac] at h3
      simpa [py_truthy] using h3
  refine ⟨hgic, ?_, ?_⟩
  · unfold process_approval_event
    rw [hgic]
    simp [h4]
  · have hinner : py_or b.eventInstanceCode b.eventApprovalCode = some c := by
      unfold py_or
      simp [h1, hc]
    have hchain : py_or (py_or b.eventInstanceCode b.eventApprovalCode)
        b.eventObjectInstanceCode = some c := by
      rw [hinner]
      unfold py_or
      simp [py_truthy, hcne]
    unfold handle_event_admission
    rw [hchain, hc]
    rcases h5 with h5 | h5
    · simp [h5, h4, hcne]
    · simp [h5, h4, hcne]

/-- Witness for C10: a concrete approved body whose code sits only in
event.approval_code is processed even when the instance set already holds
that code — the check-and-mark is skipped and the handler admits it. -/
theorem approval_code_bypass_witness :
    get_instance_code c10_body = "" ∧
    process_approval_event (fun l => l) c10_body ["AC-1"] = (["AC-1"], true) ∧
    handle_event_admission c10_body = c10_body.eventApprovalCode :=
  approval_code_bypasses_instance_dedup (fun l => l) c10_body ["AC-1"]
    (by decide) (by decide) (by decide) (by decide) (Or.inl (by decide))

/-- Unfolding equation for process_approval with the let bindings reduced. -/
theorem process_approval_eqn (st : Settings) (code : String) (inst : Instance)
    (extract : FormJson → List AttachmentRef)
    (download : List AttachmentRef → List AttachmentInfo) :
    process_approval st code inst extract download =
      match get_target_email st inst.approval_name with
      | none => .ok ⟨none, false⟩
      | some target_email =>
        match inst.form with
        | .malformed => .error "json.loads: invalid form"
        | .fields form_data =>
          match processFormAux {} form_data with
          | .error e => .error e
          | .ok walk =>
            if extract inst.form = [] then .ok ⟨none, false⟩
            else if download (extract inst.form) = [] then .ok ⟨none, false⟩
            else
              .ok ⟨some ⟨target_email,
                "[" ++ inst.approval_name ++ "]-" ++
                  py_replace (py_replace
                    (finalizeTitle walk inst.serial_number code) "\n" " ")
                    "\r" "",
                "审批已通过\n\n审批类型: " ++ inst.approval_name ++
                  "\n审批标题: " ++ finalizeTitle walk inst.serial_number code ++
                  "\n审批金额: " ++ walk.amount ++
                  "\n附件数量: " ++
                  toString (download (extract inst.form)).length ++ "\n",
                (download (extract inst.form)).length⟩, true⟩ := rfl

/-- Claim C7: an instance whose approval_name has no routing-table entry, or
whose entry resolves to a blank destination address, yields no email and
the no-op result false, without raising — the blank-destination case is
indistinguishable from the unknown-category case. -/
theorem unroutable_category_noop (st : Settings) (code : String)
    (inst : Instance) (extract : FormJson → List AttachmentRef)
    (download : List AttachmentRef → List AttachmentInfo)
    (h : lookup_attr APPROVAL_EMAIL_ATTRS inst.approval_name = none ∨
      ∃ attr, lookup_attr APPROVAL_EMAIL_ATTRS inst.approval_name = some attr ∧
        getattr_email st attr = "") :
    process_approval st code inst extract download = .ok ⟨none, false⟩ := by
  have htgt : get_target_email st inst.approval_name = none := by
    unfold get_target_email
    rcases h with h | ⟨attr, h1, h2⟩
    · rw [h]
    · rw [h1]
      simp [h2]
  rw [process_approval_eqn, htgt]

/-- Witness for C7: an unknown category and the known category 费用报销 with a
blank configured address produce the same no-email no-op outcome. -/
theorem unroutable_category_noop_witness :
    process_approval {} "I1" { approval_name := "未知审批类型" }
        c8_extract_one c8_download_ok = .ok ⟨none, false⟩ ∧
      process_approval {} "I2" { approval_name := "费用报销" }
        c8_extract_one c8_download_ok = .ok ⟨none, false⟩ :=
  ⟨unroutable_category_noop {} "I1" { approval_name := "未知审批类型" }
     c8_extract_one c8_download_ok (Or.inl (by decide)),
   unroutable_category_noop {} "I2" { approval_name := "费用报销" }
     c8_extract_one c8_download_ok
     (Or.inr ⟨"email_expense", by decide, rfl⟩)⟩

/-- Claim C8: a non-empty extractor result and a non-empty download result
are two independently necessary conditions for sending the email — any run
that produced an email had both non-empty, and for an admitted routable
instance whose form processed cleanly, failing either condition makes the
run return the no-op outcome (no email, false) without raising. -/
theorem attachment_gate (st : Settings) (code : String) (inst : Instance)
    (extract : FormJson → List AttachmentRef)
    (download : List AttachmentRef → List AttachmentInfo) :
    (∀ r, process_approval st code inst extract download = .ok r →
      r.email.isSome = true →
      extract inst.form ≠ [] ∧ download (extract inst.form) ≠ []) ∧
    (∀ target form_data walk,
      get_target_email st inst.approval_name = some target →
      inst.form = .fields form_data →
      processFormAux {} form_data = .ok walk →
      (extract inst.form = [] ∨ download (extract inst.form) = []) →
      process_approval st code inst extract download = .ok ⟨none, false⟩) := by
  constructor
  · intro r hr hsome
    rw [process_approval_eqn] at hr
    cases htgt : get_target_email st inst.approval_name with
    | none =>
      rw [htgt] at hr
      simp only [Except.ok.injEq] at hr
      rw [← hr] at hsome
      simp at hsome
    | some target =>
      rw [htgt] at hr
      cases hform : inst.form with
      | malformed =>
        rw [hform] at hr
        simp at hr
      | fields fs =>
        rw [hform] at hr
        dsimp only at hr
        cases hwalk : processFormAux {} fs with
        | error e =>
          rw [hwalk] at hr
          simp at hr
        | ok walk =>
          rw [hwalk] at hr
          dsimp only at hr
          by_cases hatt : extract (FormJson.fields fs) = []
          · rw [if_pos hatt] at hr
            simp only [Except.ok.injEq] at hr
            rw [← hr] at hsome
            simp at hsome
          · rw [if_neg hatt] at hr
            by_cases hdl : download (extract (FormJson.fields fs)) = []
            · rw [if_pos hdl] at hr
              simp only [Except.ok.injEq] at hr
              rw [← hr] at hsome
              simp at hsome
            · exact ⟨hatt, hdl⟩
  · intro target fs walk htgt hform hwalk hfail
    rw [process_approval_eqn, htgt, hform]
    dsimp only
    rw [hwalk]
    rw [hform] at hfail
    dsimp only
    rcases hfail with hf | hf
    · rw [if_pos hf]
    · by_cases he : extract (FormJson.fields fs) = []
      · rw [if_pos he]
      · rw [if_neg he, if_pos hf]

/-- Witness for C8: with the routed expense category, an extractor/downloader
pair that succeeds sends (both conditions non-empty, shown via the sending
run), while an extractor returning nothing turns the same instance into the
no-op outcome. -/
theorem attachment_gate_witness :
    (c8_extract_one c8_instance.form ≠ [] ∧
      c8_download_ok (c8_extract_one c8_instance.form) ≠ []) ∧
      process_approval witness_settings "I1" c8_instance (fun _ => [])
        c8_download_ok = .ok ⟨none, false⟩ :=
  ⟨(attachment_gate witness_settings "I1" c8_instance c8_extract_one
      c8_download_ok).1
     ⟨some ⟨"finance@example.com", "[费用报销]-I1",
       "审批已通过\n\n审批类型: 费用报销\n审批标题: I1\n审批金额: \n附件数量: 1\n", 1⟩,
       true⟩ rfl rfl,
   (attachment_gate witness_settings "I1" c8_instance (fun _ => [])
      c8_download_ok).2
     "finance@example.com" [] {} (by decide) rfl rfl (Or.inl rfl)⟩

/-- The ext scan of the fieldList branch agrees with searching for the first
amount-typed item and then dispatching on its sumItems decode outcome. -/
theorem findAmountItem_eq_find (items : List ExtItem) :
    findAmountItem items =
      match find_first_amount items with
      | none => none
      | some i =>
        match i.sumItems with
        | .rawEmpty => none
        | .malformed _ => some i.value
        | .parsed sums =>
          some (String.intercalate ", "
            (sums.map (fun s => s.value ++ " " ++ s.currency))) := by
  induction items with
  | nil => rfl
  | cons i rest ih =>
    unfold findAmountItem find_first_amount
    by_cases h : (i.type == "amount") = true
    · simp [h, List.find?_cons]
    · rw [Bool.not_eq_true] at h
      simp only [h, List.find?_cons, if_false, Bool.false_eq_true]
      exact ih

/-- Counterexample for C3: on an amount-typed ext item whose sumItems is the
empty string (which json.loads cannot parse), the claim as stated demands
the fallback to the raw value 42 (findAmountItemClaim), but the code never
enters the try block — the truthiness guard on sumItems skips it — so the
amount stays empty. -/
theorem fieldList_amount_claim_counterexample :
    findAmountItemClaim [c3_item] = some c3_item.value ∧
      stepAmount {} c3_field ≠ some c3_item.value ∧
      stepAmount {} c3_field = some "" := by
  refine ⟨by decide, by decide, by decide⟩

/-- Claim C3 (amended): on a fieldList field processed while the amount is
still empty, the scan stops at the first ext item of type amount; a
sumItems that decodes yields the comma-joined value-currency pairs, a
non-empty sumItems that fails to decode falls back to that item's raw
value, and an empty/absent sumItems leaves the amount unchanged (the scan
still stops there).  No amount item leaves the amount unchanged. -/
theorem fieldList_amount_step (st : WalkState) (f : FormField)
    (items : List ExtItem) (hamt : st.amount = "")
    (htype : f.type = "fieldList") (hext : f.ext = .arr items) :
    stepAmount st f = some
      (match find_first_amount items with
       | none => st.amount
       | some i =>
         match i.sumItems with
         | .rawEmpty => st.amount
         | .malformed _ => i.value
         | .parsed sums =>
           String.intercalate ", "
             (sums.map (fun s => s.value ++ " " ++ s.currency))) := by
  have h1 : isTitleType f.type = false := by rw [htype]; decide
  have h3 : (f.type == "fieldList") = true := by rw [htype]; decide
  have h2 : (f.type == "amount") = false := by rw [htype]; decide
  unfold stepAmount processField
  simp only [h1, Bool.and_false, Bool.false_eq_true, if_false, h2, h3,
    if_true, hext, hamt, if_pos rfl]
  rw [findAmountItem_eq_find]
  cases hfa : find_first_amount items with
  | none => rfl
  | some i => cases hsi : i.sumItems <;> simp [hsi, hamt]

/-- Witness for C3: the decoded form of the sumItems literal from the claim
(value 100, currency SEK) yields the amount 100 SEK, and a non-empty but
undecodable sumItems falls back to the raw value 42. -/
theorem fieldList_amount_step_witness :
    stepAmount {} c3_parsed_field = some "100 SEK" ∧
      stepAmount {} c3_malformed_field = some "42" :=
  ⟨(fieldList_amount_step {} c3_parsed_field [c3_parsed_item] rfl rfl
      rfl).trans (by decide),
   (fieldList_amount_step {} c3_malformed_field [c3_malformed_item] rfl rfl
      rfl).trans (by decide)⟩

/-! Walk lemmas for the title / expense-content accumulation. -/

theorem title_candidate_ne_empty (f : FormField) (v : String)
    (h : title_candidate f = some v) : v ≠ "" := by
  unfold title_candidate at h
  by_cases hb : (isTitleName f.name && isTitleType f.type) = true
  · rw [if_pos hb] at h
    cases hv : f.value with
    | str s =>
      rw [hv] at h
      dsimp only at h
      by_cases hs : py_strip s ≠ ""
      · rw [if_pos hs] at h
        simp only [Option.some.injEq] at h
        rw [← h]
        exact hs
      · rw [if_neg hs] at h
        exact absurd h (by simp)
    | absent =>
      rw [hv] at h
      exact absurd h (by simp)
    | rows rs =>
      rw [hv] at h
      exact absurd h (by simp)
  · rw [if_neg hb] at h
    exact absurd h (by simp)

theorem isTitleType_not_fieldList (t : String) (h : isTitleType t = true) :
    (t == "fieldList") = false := by
  unfold isTitleType at h
  simp only [Bool.or_eq_true, beq_iff_eq] at h
  rcases h with h | h <;> subst h <;> decide

theorem beq_amount_not_fieldList (t : String) (h : (t == "amount") = true) :
    (t == "fieldList") = false := by
  rw [beq_iff_eq] at h
  subst h
  decide

theorem processField_ok_title (st : WalkState) (f : FormField)
    (st2 : WalkState) (h : processField st f = .ok st2) :
    st2.title =
      if st.title = "" then (title_candidate f).getD "" else st.title := by
  unfold processField at h
  by_cases hb1 : (isTitleName f.name && isTitleType f.type) = true
  · rw [if_pos hb1] at h
    unfold title_candidate
    rw [if_pos hb1]
    by_cases ht : st.title = ""
    · rw [if_pos ht] at h
      rw [if_pos ht]
      cases hv : f.value with
      | str s =>
        rw [hv] at h
        simp only [Except.ok.injEq] at h
        subst h
        dsimp only
        by_cases hs : py_strip s ≠ ""
        · rw [if_pos hs]
          simp
        · rw [if_neg hs]
          push_neg at hs
          simpa using hs
      | absent =>
        rw [hv] at h
        simp only [Except.ok.injEq] at h
        subst h
        show py_strip "" = (Option.getD none "")
        decide
      | rows rs =>
        rw [hv] at h
        exact absurd h (by simp)
    · rw [if_neg ht] at h
      rw [if_neg ht]
      simp only [Except.ok.injEq] at h
      subst h
      rfl
  · rw [if_neg hb1] at h
    have hcand : title_candidate f = none := by
      unfold title_candidate
      rw [if_neg hb1]
    rw [hcand]
    have h2 : st2.title = st.title := by
      by_cases hb2 : (isAmountName f.name && (f.type == "amount")) = true
      · rw [if_pos hb2] at h
        cases hv : f.value with
        | str s =>
          rw [hv] at h
          simp only [Except.ok.injEq] at h
          subst h
          rfl
        | absent =>
          rw [hv] at h
          simp only [Except.ok.injEq] at h
          subst h
          rfl
        | rows rs =>
          rw [hv] at h
          exact absurd h (by simp)
      · rw [if_neg hb2] at h
        by_cases hb3 : (f.type == "fieldList") = true
        · rw [if_pos hb3] at h
          simp only [Except.ok.injEq] at h
          subst h
          rfl
        · rw [if_neg hb3] at h
          simp only [Except.ok.injEq] at h
          subst h
          rfl
    rw [h2]
    by_cases ht : st.title = ""
    · rw [if_pos ht]
      simpa using ht
    · rw [if_neg ht]

theorem processField_ok_expenses (st : WalkState) (f : FormField)
    (st2 : WalkState) (h : processField st f = .ok st2) :
    st2.expenses = st.expenses ++
      (if f.type == "fieldList" then expenseCells (rowsOf f.value) else []) := by
  unfold processField at h
  by_cases hb1 : (isTitleName f.name && isTitleType f.type) = true
  · have hnf : (f.type == "fieldList") = false :=
      isTitleType_not_fieldList _ ((Bool.and_eq_true _ _).mp hb1).2
    rw [if_pos hb1] at h
    rw [hnf]
    by_cases ht : st.title = ""
    · rw [if_pos ht] at h
      cases hv : f.value with
      | str s =>
        rw [hv] at h
        simp only [Except.ok.injEq] at h
        subst h
        simp
      | absent =>
        rw [hv] at h
        simp only [Except.ok.injEq] at h
        subst h
        simp
      | rows rs =>
        rw [hv] at h
        exact absurd h (by simp)
    · rw [if_neg ht] at h
      simp only [Except.ok.injEq] at h
      subst h
      simp
  · rw [if_neg hb1] at h
    by_cases hb2 : (isAmountName f.name && (f.type == "amount")) = true
    · have hnf : (f.type == "fieldList") = false :=
        beq_amount_not_fieldList _ ((Bool.and_eq_true _ _).mp hb2).2
      rw [if_pos hb2] at h
      rw [hnf]
      cases hv : f.value with
      | str s =>
        rw [hv] at h
        simp only [Except.ok.injEq] at h
        subst h
        simp
      | absent =>
        rw [hv] at h
        simp only [Except.ok.injEq] at h
        subst h
        simp
      | rows rs =>
        rw [hv] at h
        exact absurd h (by simp)
    · rw [if_neg hb2] at h
      by_cases hb3 : (f.type == "fieldList") = true
      · rw [if_pos hb3] at h
        rw [hb3]
        simp only [Except.ok.injEq] at h
        subst h
        simp
      · rw [if_neg hb3] at h
        rw [Bool.not_eq_true] at hb3
        rw [hb3]
        simp only [Except.ok.injEq] at h
        subst h
        simp

theorem walk_ok_title : ∀ (fields : List FormField) (st r : WalkState),
    processFormAux st fields = .ok r →
    r.title = if st.title = "" then first_title fields else st.title := by
  intro fields
  induction fields with
  | nil =>
    intro st r h
    simp only [processFormAux, Except.ok.injEq] at h
    subst h
    by_cases ht : st.title = ""
    · rw [if_pos ht]
      simpa [first_title] using ht
    · rw [if_neg ht]
  | cons f rest ih =>
    intro st r h
    unfold processFormAux at h
    cases hf : processField st f with
    | error e =>
      rw [hf] at h
      exact absurd h (by simp)
    | ok st1 =>
      rw [hf] at h
      dsimp only at h
      have ht1 := processField_ok_title st f st1 hf
      have hr := ih st1 r h
      by_cases ht : st.title = ""
      · rw [if_pos ht] at ht1 ⊢
        cases hc : title_candidate f with
        | none =>
          rw [hc] at ht1
          simp only [Option.getD_none] at ht1
          rw [ht1] at hr
          rw [if_pos rfl] at hr
          rw [hr]
          simp [first_title, List.filterMap_cons, hc]
        | some v =>
          have hv := title_candidate_ne_empty f v hc
          rw [hc] at ht1
          simp only [Option.getD_some] at ht1
          rw [ht1] at hr
          rw [if_neg hv] at hr
          rw [hr]
          simp [first_title, List.filterMap_cons, hc]
      · rw [if_neg ht] at ht1 ⊢
        rw [ht1] at hr
        rw [if_neg ht] at hr
        exact hr

theorem walk_ok_expenses : ∀ (fields : List FormField) (st r : WalkState),
    processFormAux st fields = .ok r →
    r.expenses = st.expenses ++ expensesOf fields := by
  intro fields
  induction fields with
  | nil =>
    intro st r h
    simp only [processFormAux, Except.ok.injEq] at h
    subst h
    simp [expensesOf]
  | cons f rest ih =>
    intro st r h
    unfold processFormAux at h
    cases hf : processField st f with
    | error e =>
      rw [hf] at h
      exact absurd h (by simp)
    | ok st1 =>
      rw [hf] at h
      dsimp only at h
      have he1 := processField_ok_expenses st f st1 hf
      have hr := ih st1 r h
      rw [hr, he1]
      simp [expensesOf, List.append_assoc]

/-- Claim C1: for every form that the walk processes without raising, the
title produced by the pass is the first non-empty stripped value among
recognised input/textarea title fields (set only while the title is still
empty, so later matches are ignored); the accumulated line-item contents
are exactly the row contents of the fieldList fields in order; and the
final title is their dash-join whenever they are non-empty (overriding the
pass title), else the pass title, else the serial number with the instance
code as last resort. -/
theorem form_title_rule (fields : List FormField) (serial : Option String)
    (code : String) (r : WalkState) (h : processForm fields = .ok r) :
    r.title = first_title fields ∧
    r.expenses = expensesOf fields ∧
    finalizeTitle r serial code =
      (if expensesOf fields = [] then
        (if first_title fields = "" then serial.getD code
         else first_title fields)
       else String.intercalate "-" (expensesOf fields)) := by
  unfold processForm at h
  have h1 := walk_ok_title fields {} r h
  have h2 := walk_ok_expenses fields {} r h
  rw [if_pos rfl] at h1
  simp only [List.nil_append] at h2
  refine ⟨h1, h2, ?_⟩
  unfold finalizeTitle
  rw [h1, h2]
  by_cases he : expensesOf fields = []
  · simp [he]
  · simp [he]

/-- Witness for C1: the form of the claim — title field 付款事由 with value
Q1 travel plus line items hotel and taxi — walks to the expected state and
finalises to the overriding title hotel-taxi. -/
theorem form_title_rule_witness :
    processForm c1_fields = .ok ⟨"Q1 travel", "", ["hotel", "taxi"]⟩ ∧
      finalizeTitle ⟨"Q1 travel", "", ["hotel", "taxi"]⟩ (some "SN1") "CODE1" =
        "hotel-taxi" :=
  ⟨rfl,
   ((form_title_rule c1_fields (some "SN1") "CODE1"
       ⟨"Q1 travel", "", ["hotel", "taxi"]⟩ rfl).2.2).trans (by decide)⟩

end FeishuApproval
